import Mathlib

/-!
Verification of the YTsum summarization pipeline core.

The Python sources are embedded shallowly:
* machine floats carrying times, frame rates and confidences are modelled
  as rationals (`ℚ`); Python's `int(...)` truncation, `//` floor division
  and `%` modulo are given explicit rational definitions;
* fallible code (a Python statement that can raise) returns `Except String`;
* each Lean definition mirrors one Python function and keeps its name.
-/

namespace YTsum

/-- Python `int(q)`: truncation toward zero. -/
def pyInt (q : ℚ) : ℤ := if 0 ≤ q then ⌊q⌋ else ⌈q⌉

/-- Python `a % b` on numbers (sign follows the divisor; used here with a
positive divisor, where it equals `a - b * ⌊a / b⌋`). -/
def pymod (a b : ℚ) : ℚ := a - b * ⌊a / b⌋

/-- Python `f"{n:02d}"`: decimal rendering of `n`, left-padded with `0`
to a minimum width of 2. -/
def pad2 (n : ℤ) : String := if 0 ≤ n ∧ n < 10 then "0" ++ toString n else toString n

/-- `AudioTranscriber._format_timestamp` / `VisionAnalyzer._format_timestamp`
(src/audio/transcriber.py, src/vision/analyzer.py): `hours = int(seconds // 3600)`,
`minutes = int((seconds % 3600) // 60)`, `seconds = int(seconds % 60)`,
rendered as `f"{hours:02d}:{minutes:02d}:{seconds:02d}"`. -/
def format_timestamp (seconds : ℚ) : String :=
  let hours : ℤ := ⌊seconds / 3600⌋
  let minutes : ℤ := ⌊pymod seconds 3600 / 60⌋
  let secs : ℤ := pyInt (pymod seconds 60)
  pad2 hours ++ ":" ++ pad2 minutes ++ ":" ++ pad2 secs

example : pad2 7 = "07" := by decide
example : (⌊(36619 / 10 : ℚ)⌋ : ℤ) = 3661 := by norm_num
example : format_timestamp (36619 / 10) = "01:01:01" := by
  norm_num [format_timestamp, pymod, pyInt, pad2]
  rfl

/-- A transcription segment as produced by `AudioTranscriber.transcribe_audio`:
the Python dict `{"start": ..., "end": ..., "text": ...}` (the `end` key is
named `stop` here because `end` is a Lean keyword). -/
structure Segment where
  start : ℚ
  stop : ℚ
  text : String
deriving DecidableEq, Repr

/-- A string with no leading or trailing whitespace: the fixed points of the
`strip()` that `AudioTranscriber.transcribe_audio` applies when it builds a
segment's text, i.e. what the data model guarantees about `Segment.text`. -/
def strippedText (s : String) : Bool :=
  (match s.data with
    | [] => true
    | c :: _ => !c.isWhitespace) &&
  (match s.data.getLast? with
    | none => true
    | some c => !c.isWhitespace)

/-- `AudioTranscriber.format_transcript` (src/audio/transcriber.py):
`"long"` joins the segment texts with `" "`, any other format type renders one
`"[start] text"` line per segment joined by `"\n"`. -/
def format_transcript (segments : List Segment) (format_type : String) : String :=
  if format_type = "long" then
    String.intercalate " " (segments.map (·.text))
  else
    String.intercalate "\n"
      (segments.map (fun s => "[" ++ format_timestamp s.start ++ "] " ++ s.text))

/-- One ranked scene description from `VisionAnalyzer.analyze_frame`:
the Python dict `{"text": ..., "confidence": ...}`. -/
structure Description where
  text : String
  confidence : ℚ
deriving DecidableEq, Repr, Inhabited

/-- One entry of the list consumed by `VisionAnalyzer.format_visual_content`:
the Python dict `{"timestamp": ..., "analysis": {"descriptions": [...]}}`,
with the singleton `analysis` wrapper flattened away. -/
structure FrameAnalysis where
  timestamp : ℚ
  descriptions : List Description
deriving DecidableEq, Repr

/-- Rounding to the nearest integer with ties to even, as Python's float
formatting does. -/
def roundHalfEven (q : ℚ) : ℤ :=
  if q - ⌊q⌋ < 1 / 2 then ⌊q⌋
  else if 1 / 2 < q - ⌊q⌋ then ⌊q⌋ + 1
  else if 2 ∣ ⌊q⌋ then ⌊q⌋ else ⌊q⌋ + 1

/-- Python `f"{x:.2f}"` for the nonnegative confidences of the data model:
round `x` to two decimal places (ties to even) and render with exactly two
digits after the point. -/
def formatConf2 (x : ℚ) : String :=
  let n := roundHalfEven (x * 100)
  toString (n / 100) ++ "." ++ pad2 (n % 100)

example : formatConf2 (17 / 20) = "0.85" := by
  norm_num [formatConf2, roundHalfEven, pad2]
  rfl

/-- The line `VisionAnalyzer.format_visual_content` builds for one analysis
entry; evaluating `descriptions[0]` on an empty list raises `IndexError`. -/
def visualLine (a : FrameAnalysis) : Except String String :=
  match a.descriptions with
  | [] => .error "list index out of range"
  | top :: _ =>
      .ok ("[" ++ format_timestamp a.timestamp ++ "] " ++ top.text ++
        " (confidence: " ++ formatConf2 top.confidence ++ ")")

/-- The `formatted` list accumulated by `VisionAnalyzer.format_visual_content`;
the first entry whose description list is empty aborts the loop with the
`IndexError`. -/
def visualLines : List FrameAnalysis → Except String (List String)
  | [] => .ok []
  | a :: rest =>
    match visualLine a with
    | .error e => .error e
    | .ok line =>
      match visualLines rest with
      | .error e => .error e
      | .ok ls => .ok (line :: ls)

/-- `VisionAnalyzer.format_visual_content` (src/vision/analyzer.py):
one line per analysis entry from its top-ranked description, joined by
`"\n"`; raises when an entry has no descriptions. -/
def format_visual_content (analyses : List FrameAnalysis) : Except String String :=
  (visualLines analyses).map (String.intercalate "\n")

/-- Instruction line chosen by `SummaryGenerator._construct_prompt` for
`format_type == "timestamped"`. -/
def timestampedInstruction : String :=
  "Create a timestamped summary with key points and their timestamps."

/-- Instruction line chosen by `SummaryGenerator._construct_prompt` for any
other format type. -/
def longInstruction : String :=
  "Create a comprehensive summary of the video content."

/-- `SummaryGenerator._construct_prompt` (src/summarizer/generator.py): the
fixed f-string template with the transcript, visual content and
format-selected instruction interpolated. -/
def construct_prompt (transcript visual_content format_type : String) : String :=
  let format_instructions :=
    if format_type = "timestamped" then timestampedInstruction else longInstruction
  "Please analyze the following video content and create a summary.\n\nTranscript:\n"
    ++ transcript
    ++ "\n\nVisual Content Analysis:\n"
    ++ visual_content
    ++ "\n\nInstructions:\n"
    ++ format_instructions
    ++ "\nFocus on the main points and key insights.\nIf there are any demonstrations or visual elements, make sure to mention them.\nKeep the summary clear and concise while maintaining all important information.\n\nSummary:"

/-- `frame_interval = int(fps * self.interval_seconds)`
(src/video/processor.py line 32). -/
def frame_interval (fps : ℚ) (interval_seconds : ℕ) : ℤ :=
  pyInt (fps * interval_seconds)

/-- The `while cap.isOpened()` read loop of `VideoProcessor.extract_keyframes`:
`frame_count` is the running index, `decodable` the number of frames
`cap.read()` still delivers before it fails; a frame is kept when
`frame_count % fi == 0`, with timestamp `frame_count / fps`.  Frames are
identified by their index (pixel data is outside the model). -/
def keyframeLoop (fps : ℚ) (fi : ℤ) : (frame_count : ℕ) → (decodable : ℕ) → List (ℚ × ℕ)
  | _, 0 => []
  | c, n + 1 =>
    (if (c : ℤ) % fi = 0 then [((c : ℚ) / fps, c)] else [])
      ++ keyframeLoop fps fi (c + 1) n

/-- `VideoProcessor.extract_keyframes` (src/video/processor.py): the video
is abstracted to its reported `fps` and its number of decodable frames.
When `frame_interval` is `0` and at least one frame decodes, the first
`frame_count % frame_interval` raises `ZeroDivisionError`, which the
enclosing `except` re-raises with the `"Error processing video: "` prefix. -/
def extract_keyframes (fps : ℚ) (interval_seconds total_frames : ℕ) :
    Except String (List (ℚ × ℕ)) :=
  if frame_interval fps interval_seconds = 0 ∧ total_frames ≠ 0 then
    .error "Error processing video: integer modulo by zero"
  else
    .ok (keyframeLoop fps (frame_interval fps interval_seconds) 0 total_frames)

example : extract_keyframes (27 / 10) 1 3 =
    .ok [(0, 0), (20 / 27, 2)] := by
  norm_num [extract_keyframes, frame_interval, pyInt, keyframeLoop]

/-- The pipeline stages of `main` (src/main.py), in invocation order. -/
inductive Stage where
  | acquire
  | sample
  | transcribe
  | analyze
  | generate
deriving DecidableEq, Repr

/-- The external services `main` drives, abstracted behind the calls the
repository makes into them: `pytube` fetches `(video_path, audio_path)`,
`videoProps` is what `cv2.VideoCapture` reports for a file (frame rate,
number of decodable frames), `whisper` transcribes, `clip` classifies the
keyframes, `gpt` answers a prompt. -/
structure Collaborators where
  pytube : String → Except String (String × String)
  videoProps : String → ℚ × ℕ
  whisper : String → Except String (List Segment)
  clip : List (ℚ × ℕ) → Except String (List FrameAnalysis)
  gpt : String → Except String String

/-- `VideoDownloader.download_video` (src/video/downloader.py): any failure of
the fetch is re-raised with the `"Error downloading video: "` prefix. -/
def download_video (pytube : String → Except String (String × String))
    (url : String) : Except String (String × String) :=
  match pytube url with
  | .error e => .error ("Error downloading video: " ++ e)
  | .ok p => .ok p

/-- `AudioTranscriber.transcribe_audio` (src/audio/transcriber.py): any
failure of the transcription service is re-raised with the
`"Error transcribing audio: "` prefix. -/
def transcribe_audio (whisper : String → Except String (List Segment))
    (audio_path : String) : Except String (List Segment) :=
  match whisper audio_path with
  | .error e => .error ("Error transcribing audio: " ++ e)
  | .ok segments => .ok segments

/-- `SummaryGenerator.generate_summary` (src/summarizer/generator.py): build
the prompt, call the model, strip the reply; service failures are re-raised
with the `"Error generating summary: "` prefix. -/
def generate_summary (gpt : String → Except String String)
    (transcript visual_content format_type : String) : Except String String :=
  match gpt (construct_prompt transcript visual_content format_type) with
  | .error e => .error ("Error generating summary: " ++ e)
  | .ok s => .ok s.trim

/-- `main` (src/main.py): the straight-line run inside the outer
`try`/`except`, which stops at the first raising stage and surfaces
`"Error: " ++ message`.  Alongside the result, the list of stages whose
collaborator was actually invoked is recorded, in order. -/
def runPipeline (c : Collaborators) (url output_format : String) :
    Except String String × List Stage :=
  match download_video c.pytube url with
  | .error e => (.error ("Error: " ++ e), [.acquire])
  | .ok (video_path, audio_path) =>
    let props := c.videoProps video_path
    match extract_keyframes props.1 5 props.2 with
    | .error e => (.error ("Error: " ++ e), [.acquire, .sample])
    | .ok keyframes =>
      match transcribe_audio c.whisper audio_path with
      | .error e => (.error ("Error: " ++ e), [.acquire, .sample, .transcribe])
      | .ok segments =>
        let transcript := format_transcript segments output_format
        match c.clip keyframes with
        | .error e => (.error ("Error: " ++ e), [.acquire, .sample, .transcribe, .analyze])
        | .ok analyses =>
          match format_visual_content analyses with
          | .error e => (.error ("Error: " ++ e), [.acquire, .sample, .transcribe, .analyze])
          | .ok visual_content =>
            match generate_summary c.gpt transcript visual_content output_format with
            | .error e =>
              (.error ("Error: " ++ e),
                [.acquire, .sample, .transcribe, .analyze, .generate])
            | .ok summary =>
              (.ok summary, [.acquire, .sample, .transcribe, .analyze, .generate])

/-! ### Arithmetic helper lemmas -/

/-- Floor of a rational divided by a positive natural is the integer floor
divided (flooring division) by it. -/
lemma floor_div_natCast (a : ℚ) (n : ℕ) (hn : 0 < n) :
    ⌊a / (n : ℚ)⌋ = ⌊a⌋ / (n : ℤ) := by
  have hnQ : (0 : ℚ) < (n : ℚ) := by exact_mod_cast hn
  have hnZ : (0 : ℤ) < (n : ℤ) := by exact_mod_cast hn
  refine le_antisymm ?_ ?_
  · rw [Int.le_ediv_iff_mul_le hnZ, Int.le_floor]
    push_cast
    rw [← le_div_iff₀ hnQ]
    exact Int.floor_le _
  · rw [Int.le_floor]
    rw [le_div_iff₀ hnQ]
    calc ((⌊a⌋ / (n : ℤ) : ℤ) : ℚ) * (n : ℚ)
        = (((⌊a⌋ / (n : ℤ)) * (n : ℤ) : ℤ) : ℚ) := by push_cast; ring
      _ ≤ ((⌊a⌋ : ℤ) : ℚ) := by exact_mod_cast Int.ediv_mul_le ⌊a⌋ (by omega)
      _ ≤ a := Int.floor_le a

/-- The minutes field computed by `format_timestamp`, expressed through the
integer floor of the input. -/
lemma floor_pymod_3600_div_60 (s : ℚ) :
    ⌊pymod s 3600 / 60⌋ = ⌊s⌋ / 60 % 60 := by
  unfold pymod
  rw [show (3600 : ℚ) = ((3600 : ℕ) : ℚ) by norm_num,
    floor_div_natCast s 3600 (by norm_num)]
  rw [show (((3600 : ℕ) : ℚ)) * ((⌊s⌋ / ((3600 : ℕ) : ℤ) : ℤ) : ℚ)
      = (((3600 * (⌊s⌋ / 3600) : ℤ)) : ℚ) by push_cast; ring]
  rw [show (60 : ℚ) = ((60 : ℕ) : ℚ) by norm_num,
    floor_div_natCast _ 60 (by norm_num), Int.floor_sub_int]
  omega

/-- The seconds field computed by `format_timestamp`, expressed through the
integer floor of the input. -/
lemma pyInt_pymod_60 (s : ℚ) : pyInt (pymod s 60) = ⌊s⌋ % 60 := by
  have h0 : (0 : ℚ) ≤ pymod s 60 := by
    unfold pymod
    have h : (⌊s / 60⌋ : ℚ) * 60 ≤ s := by
      rw [← le_div_iff₀ (by norm_num : (0 : ℚ) < 60)]
      exact Int.floor_le _
    nlinarith
  simp only [pyInt, if_pos h0]
  unfold pymod
  rw [show (60 : ℚ) = ((60 : ℕ) : ℚ) by norm_num,
    floor_div_natCast s 60 (by norm_num)]
  rw [show (((60 : ℕ) : ℚ)) * ((⌊s⌋ / ((60 : ℕ) : ℤ) : ℤ) : ℚ)
      = (((60 * (⌊s⌋ / 60) : ℤ)) : ℚ) by push_cast; ring]
  rw [Int.floor_sub_int]
  omega

/-- `pad2` really pads to width 2 on the two-digit range. -/
lemma pad2_length {n : ℤ} (h0 : 0 ≤ n) (h : n < 100) : (pad2 n).length = 2 := by
  have hk : ∀ k : ℕ, k < 100 → (pad2 (k : ℤ)).length = 2 := by decide
  obtain ⟨k, rfl⟩ : ∃ k : ℕ, n = (k : ℤ) := ⟨n.toNat, (Int.toNat_of_nonneg h0).symm⟩
  exact hk k (by exact_mod_cast h)

/-- For a nonnegative frame rate the truncation in `frame_interval` is the
floor of `fps * interval_seconds`. -/
lemma frame_interval_floor (fps : ℚ) (I : ℕ) (h : 0 ≤ fps) :
    frame_interval fps I = ⌊fps * I⌋ := by
  have hnn : (0 : ℚ) ≤ fps * I := mul_nonneg h (Nat.cast_nonneg I)
  simp [frame_interval, pyInt, hnn]

/-- A product below one truncates to a zero stride. -/
lemma frame_interval_zero (fps : ℚ) (I : ℕ) (h : 0 ≤ fps) (hlt : fps * I < 1) :
    frame_interval fps I = 0 := by
  have hnn : (0 : ℚ) ≤ fps * I := mul_nonneg h (Nat.cast_nonneg I)
  rw [frame_interval_floor fps I h, Int.floor_eq_zero_iff]
  exact ⟨hnn, hlt⟩

/-- The read loop visits exactly the indices `frame_count, …,
frame_count + decodable - 1` and keeps those divisible by the stride. -/
lemma keyframeLoop_eq_filterMap (fps : ℚ) (fi : ℤ) :
    ∀ (r c : ℕ), keyframeLoop fps fi c r = (List.range' c r).filterMap
      (fun i : ℕ => if (i : ℤ) % fi = 0 then some ((i : ℚ) / fps, i) else none)
  | 0, _ => rfl
  | (n + 1), c => by
    rw [List.range'_succ, List.filterMap_cons]
    rw [show keyframeLoop fps fi c (n + 1)
        = (if (c : ℤ) % fi = 0 then [((c : ℚ) / fps, c)] else [])
          ++ keyframeLoop fps fi (c + 1) n from rfl]
    rw [keyframeLoop_eq_filterMap fps fi n (c + 1)]
    by_cases h : (c : ℤ) % fi = 0 <;> simp [h]

/-- Filtering a range for multiples of a positive `m` enumerates
`0, m, 2m, …`, of which there are `(N + m - 1) / m` below `N`. -/
lemma filterMap_range_multiples {α : Type} (f : ℕ → α) (m : ℕ) (hm : 0 < m) :
    ∀ N : ℕ, (List.range N).filterMap (fun i => if i % m = 0 then some (f i) else none)
      = (List.range ((N + m - 1) / m)).map (fun k => f (k * m))
  | 0 => by
    rw [show 0 + m - 1 = m - 1 by omega, Nat.div_eq_of_lt (by omega : m - 1 < m)]
    simp
  | (n + 1) => by
    rw [show List.range (n + 1) = List.range n ++ [n] by simpa using List.range_succ n,
      List.filterMap_append, filterMap_range_multiples f m hm n]
    obtain ⟨q, r, hrm, rfl⟩ : ∃ q r, r < m ∧ n = m * q + r :=
      ⟨n / m, n % m, Nat.mod_lt _ hm, (Nat.div_add_mod n m).symm⟩
    by_cases h : r = 0
    · subst h
      have hmod : (m * q + 0) % m = 0 := by
        rw [Nat.add_zero, Nat.mul_mod_right]
      have e1 : (m * q + 0 + m - 1) / m = q := by
        rw [Nat.add_zero, Nat.add_sub_assoc (by omega : 1 ≤ m),
          Nat.mul_add_div hm, Nat.div_eq_of_lt (by omega : m - 1 < m), Nat.add_zero]
      have e2 : (m * q + 0 + 1 + m - 1) / m = q + 1 := by
        rw [Nat.add_zero, Nat.add_assoc,
          Nat.add_sub_assoc (by omega : 1 ≤ 1 + m),
          show 1 + m - 1 = m by omega,
          show m * q + m = m * (q + 1) by ring,
          Nat.mul_div_cancel_left _ hm]
      rw [e1, e2, List.range_succ, List.map_append]
      simp [hmod, Nat.mul_comm]
    · have hmod : (m * q + r) % m ≠ 0 := by
        rw [Nat.mul_add_mod, Nat.mod_eq_of_lt hrm]
        exact h
      have e3 : (m * q + r + 1 + m - 1) / m = (m * q + r + m - 1) / m := by
        have a1 : m * q + r + 1 + m - 1 = m * q + (r + m) := by
          rw [Nat.add_assoc (m * q) r 1, Nat.add_assoc (m * q) (r + 1) m,
            Nat.add_sub_assoc (by omega : 1 ≤ r + 1 + m),
            show r + 1 + m - 1 = r + m by omega]
        have a2 : m * q + r + m - 1 = m * q + (r - 1 + m) := by
          rw [Nat.add_assoc (m * q) r m,
            Nat.add_sub_assoc (by omega : 1 ≤ r + m),
            show r + m - 1 = r - 1 + m by omega]
        rw [a1, a2, Nat.mul_add_div hm, Nat.mul_add_div hm,
          Nat.add_div_right _ hm, Nat.add_div_right _ hm,
          Nat.div_eq_of_lt hrm, Nat.div_eq_of_lt (by omega : r - 1 < m)]
      rw [e3]
      simp [hmod]

/-- Ceiling division of naturals through the rationals. -/
lemma nat_ceil_div_eq (N m : ℕ) (hm : 0 < m) :
    ⌈(N : ℚ) / (m : ℚ)⌉₊ = (N + m - 1) / m := by
  have hmQ : (0 : ℚ) < (m : ℚ) := by exact_mod_cast hm
  rcases Nat.eq_zero_or_pos N with rfl | hN
  · rw [show 0 + m - 1 = m - 1 by omega, Nat.div_eq_of_lt (by omega : m - 1 < m)]
    simp
  · have hq : (N + m - 1) / m = (N - 1) / m + 1 := by
      rw [show N + m - 1 = (N - 1) + m by omega, Nat.add_div_right _ hm]
    rw [hq, Nat.ceil_eq_iff (Nat.succ_ne_zero _)]
    obtain ⟨q, r, hrm, hqr⟩ : ∃ q r, r < m ∧ m * q + r = N - 1 :=
      ⟨(N - 1) / m, (N - 1) % m, Nat.mod_lt _ hm, Nat.div_add_mod (N - 1) m⟩
    have hqeq : (N - 1) / m = q := by
      rw [← hqr, Nat.mul_add_div hm, Nat.div_eq_of_lt hrm, Nat.add_zero]
    rw [hqeq]
    obtain ⟨P, hP⟩ : ∃ P, m * q = P := ⟨_, rfl⟩
    rw [hP] at hqr
    constructor
    · rw [Nat.succ_sub_one, lt_div_iff₀ hmQ]
      have hNat : q * m < N := by
        rw [Nat.mul_comm, hP]; omega
      exact_mod_cast hNat
    · rw [div_le_iff₀ hmQ, Nat.succ_eq_add_one]
      have hNat : N ≤ (q + 1) * m := by
        have h2 : (q + 1) * m = m * q + m := by ring
        rw [h2, hP]; omega
      exact_mod_cast hNat

/-- Full characterization of `extract_keyframes` for a positive frame rate
whose stride does not truncate to zero: the emitted list is exactly the
multiples of the stride below `N`, each stamped `index / fps`. -/
lemma extract_keyframes_ok (fps : ℚ) (I N : ℕ) (hfps : 0 < fps)
    (hfi : 1 ≤ fps * I) :
    extract_keyframes fps I N = .ok
      ((List.range ((N + (frame_interval fps I).toNat - 1) / (frame_interval fps I).toNat)).map
        (fun k => (((k * (frame_interval fps I).toNat : ℕ) : ℚ) / fps,
          k * (frame_interval fps I).toNat))) := by
  have h0 : (0 : ℚ) ≤ fps := le_of_lt hfps
  have hfl : frame_interval fps I = ⌊fps * I⌋ := frame_interval_floor fps I h0
  have hpos : 1 ≤ frame_interval fps I := by
    rw [hfl]
    exact Int.le_floor.mpr (by exact_mod_cast hfi)
  set m : ℕ := (frame_interval fps I).toNat with hm
  have hmpos : 0 < m := by omega
  have hfi_eq : frame_interval fps I = (m : ℤ) := by omega
  unfold extract_keyframes
  rw [if_neg (by intro hc; omega)]
  rw [keyframeLoop_eq_filterMap fps (frame_interval fps I) N 0, hfi_eq,
    ← List.range_eq_range']
  have hfun : (fun i : ℕ => if (i : ℤ) % (m : ℤ) = 0
        then some ((i : ℚ) / fps, i) else none)
      = (fun i : ℕ => if i % m = 0
        then some ((fun j : ℕ => ((j : ℚ) / fps, j)) i) else none) := by
    funext i
    simp only [← Int.natCast_mod, Nat.cast_eq_zero]
  rw [hfun, filterMap_range_multiples (fun j : ℕ => ((j : ℚ) / fps, j)) m hmpos N]

/-- When every entry has at least one description the line loop succeeds and
produces one line per entry, from the entry's first description. -/
lemma visualLines_ok (analyses : List FrameAnalysis)
    (h : ∀ a ∈ analyses, a.descriptions ≠ []) :
    visualLines analyses = .ok (analyses.map (fun a =>
      "[" ++ format_timestamp a.timestamp ++ "] " ++ a.descriptions.headI.text ++
      " (confidence: " ++ formatConf2 a.descriptions.headI.confidence ++ ")")) := by
  induction analyses with
  | nil => rfl
  | cons a rest ih =>
    have ha := h a (List.mem_cons_self a rest)
    have hrest : ∀ x ∈ rest, x.descriptions ≠ [] :=
      fun x hx => h x (List.mem_cons_of_mem a hx)
    cases hd : a.descriptions with
    | nil => exact absurd hd ha
    | cons top tl =>
      rw [show visualLines (a :: rest)
          = match visualLine a with
            | .error e => .error e
            | .ok line =>
              match visualLines rest with
              | .error e => .error e
              | .ok ls => .ok (line :: ls) from rfl]
      rw [show visualLine a = .ok ("[" ++ format_timestamp a.timestamp ++ "] "
          ++ top.text ++ " (confidence: " ++ formatConf2 top.confidence ++ ")") from by
        unfold visualLine
        rw [hd]]
      rw [ih hrest]
      simp [hd]

/-! ### Claim theorems -/

/-- C1 counterexample: at `F = 2.7, I = 1` the code's stride is the
truncation `2`, not `round(2.7) = 3`; and at `F = 0.5, I = 1` the stride is
`0`, so it is not clamped to a minimum of 1. -/
theorem frame_interval_counterexample :
    frame_interval (27 / 10) 1 = 2 ∧ round ((27 / 10 : ℚ) * ((1 : ℕ) : ℚ)) = 3 ∧
    frame_interval (1 / 2) 1 = 0 ∧ ¬(1 ≤ frame_interval (1 / 2) 1) := by
  refine ⟨?_, ?_, ?_, ?_⟩ <;> norm_num [frame_interval, pyInt, round_eq]

/-- C1 (amended): the sampling stride is `frame_interval = int(F ×
interval_seconds)`, truncation rather than rounding, and it is not clamped:
whenever `F × interval_seconds < 1` (for a nonnegative frame rate) the
stride is `0`, which exposes the subsequent modulo to division by zero. -/
theorem frame_interval_is_trunc (fps : ℚ) (I : ℕ) (h : 0 ≤ fps) :
    frame_interval fps I = ⌊fps * I⌋ ∧ (fps * I < 1 → frame_interval fps I = 0) :=
  ⟨frame_interval_floor fps I h, frame_interval_zero fps I h⟩

/-- Witness for the amended C1 at `F = 1/10, I = 5`. -/
theorem frame_interval_is_trunc_witness :
    frame_interval (1 / 10) 5 = ⌊(1 / 10 : ℚ) * ((5 : ℕ) : ℚ)⌋ ∧
    frame_interval (1 / 10) 5 = 0 :=
  ⟨(frame_interval_is_trunc (1 / 10) 5 (by norm_num)).1,
    (frame_interval_is_trunc (1 / 10) 5 (by norm_num)).2 (by norm_num)⟩

/-- C10.  For every nonnegative frame rate with `F × interval_seconds < 1`
(including `F = 0`) and at least one decodable frame, `extract_keyframes`
raises: the truncated stride is `0` and the unguarded
`frame_count % frame_interval` fails, surfaced as the wrapped processing
error. -/
theorem extract_keyframes_zero_stride_raises (fps : ℚ) (I N : ℕ)
    (h0 : 0 ≤ fps) (h1 : fps * I < 1) (hN : N ≠ 0) :
    extract_keyframes fps I N =
      .error "Error processing video: integer modulo by zero" := by
  have hfi := frame_interval_zero fps I h0 h1
  unfold extract_keyframes
  rw [if_pos ⟨hfi, hN⟩]

/-- Witness for C10 at `F = 0, I = 5`, one decodable frame. -/
theorem extract_keyframes_zero_stride_raises_witness :
    extract_keyframes 0 5 1 =
      .error "Error processing video: integer modulo by zero" :=
  extract_keyframes_zero_stride_raises 0 5 1 (by norm_num) (by norm_num)
    (by norm_num)

/-- C2 counterexample: at `F = 2.7, I = 1` with 3 decodable frames the code
emits 2 keyframes (indices 0 and 2), while the claim's
`⌈totalFrames / round(F×I)⌉ = ⌈3/3⌉` predicts 1, and the actual timestamp
spacing `20/27` is not the claimed `round(F×I)/F = 10/9`. -/
theorem extract_keyframes_count_counterexample :
    extract_keyframes (27 / 10) 1 3 = .ok [(0, 0), (20 / 27, 2)] ∧
    ⌈(3 : ℚ) / ((round ((27 / 10 : ℚ) * ((1 : ℕ) : ℚ)) : ℤ) : ℚ)⌉₊ = 1 ∧
    (20 / 27 : ℚ) - 0 ≠ ((round ((27 / 10 : ℚ) * ((1 : ℕ) : ℚ)) : ℤ) : ℚ) / (27 / 10) := by
  refine ⟨?_, ?_, ?_⟩
  · norm_num [extract_keyframes, frame_interval, pyInt, keyframeLoop]
  · norm_num [round_eq]
  · norm_num [round_eq]

/-- C2 (amended): for `F > 0`, `I ≥ 1` and non-vanishing truncated stride
`1 ≤ F × I` (the claim's `round` corrected to the code's `int` truncation),
the sampler emits exactly `⌈totalFrames / frame_interval⌉` keyframes, the
`j`-th being frame index `j · frame_interval` with timestamp
`j · frame_interval / F`; timestamps are strictly increasing and
consecutive ones differ by exactly `frame_interval / F`. -/
theorem extract_keyframes_count_spacing (fps : ℚ) (I N : ℕ) (hfps : 0 < fps)
    (_hI : 1 ≤ I) (hfi : 1 ≤ fps * I) :
    ∃ ks : List (ℚ × ℕ),
      extract_keyframes fps I N = .ok ks ∧
      ks.length = ⌈(N : ℚ) / ((frame_interval fps I : ℤ) : ℚ)⌉₊ ∧
      (∀ j, j < ks.length →
        ks.getD j (0, 0) = (((j * (frame_interval fps I).toNat : ℕ) : ℚ) / fps,
          j * (frame_interval fps I).toNat)) ∧
      (∀ j, j + 1 < ks.length →
        (ks.getD (j + 1) (0, 0)).1 - (ks.getD j (0, 0)).1
          = ((frame_interval fps I : ℤ) : ℚ) / fps) ∧
      List.Pairwise (fun p q : ℚ × ℕ => p.1 < q.1) ks := by
  have h0 : (0 : ℚ) ≤ fps := le_of_lt hfps
  have hfl : frame_interval fps I = ⌊fps * I⌋ := frame_interval_floor fps I h0
  have hpos : 1 ≤ frame_interval fps I := by
    rw [hfl]
    exact Int.le_floor.mpr (by exact_mod_cast hfi)
  set m : ℕ := (frame_interval fps I).toNat with hm
  have hmpos : 0 < m := by omega
  have hfi_eq : frame_interval fps I = (m : ℤ) := by omega
  refine ⟨_, extract_keyframes_ok fps I N hfps hfi, ?_, ?_, ?_, ?_⟩
  · rw [List.length_map, List.length_range, hfi_eq, Int.cast_natCast,
      nat_ceil_div_eq N m hmpos]
    simp [Int.toNat_natCast]
  · intro j hj
    rw [List.length_map, List.length_range] at hj
    rw [List.getD_eq_getElem _ _ (by simpa using hj), List.getElem_map,
      List.getElem_range]
  · intro j hj
    rw [List.length_map, List.length_range] at hj
    rw [List.getD_eq_getElem _ _ (by simpa using hj),
      List.getD_eq_getElem _ _ (by simp; omega), List.getElem_map,
      List.getElem_map, List.getElem_range, List.getElem_range, hfi_eq,
      Int.cast_natCast]
    simp only [Int.toNat_natCast]
    push_cast
    rw [div_sub_div_same]
    congr 1
    ring
  · rw [List.pairwise_map]
    refine List.Pairwise.imp ?_ (List.pairwise_lt_range _)
    intro a b hab
    simp only
    rw [div_lt_div_iff_of_pos_right hfps]
    exact_mod_cast Nat.mul_lt_mul_right hmpos |>.mpr hab

/-- Witness for the amended C2 at `F = 2, I = 1`, 5 decodable frames:
stride 2, hence `⌈5/2⌉ = 3` keyframes. -/
theorem extract_keyframes_count_spacing_witness :
    ∃ ks : List (ℚ × ℕ), extract_keyframes 2 1 5 = .ok ks ∧ ks.length = 3 := by
  obtain ⟨ks, hok, hlen, -, -, -⟩ :=
    extract_keyframes_count_spacing 2 1 5 (by norm_num) (by norm_num) (by norm_num)
  refine ⟨ks, hok, ?_⟩
  rw [hlen, show frame_interval 2 1 = 2 by norm_num [frame_interval, pyInt]]
  rw [show (((2 : ℤ) : ℚ)) = 2 by norm_num]
  rw [show ((5 : ℕ) : ℚ) / 2 = 5 / 2 by norm_num]
  rw [Nat.ceil_eq_iff (by norm_num)]
  norm_num

/-- C3.  For every nonnegative `s`, `format_timestamp s` is
`HH:MM:SS` where the hours field is the full `⌊s⌋ / 3600` (unbounded, no
wrap at 24), the minutes field is `⌊s⌋ / 60 % 60` and the seconds field is
`⌊s⌋ % 60` (fractional seconds dropped by truncation), both of the latter
zero-padded to exactly 2 characters; in particular
`format_timestamp 3661.9 = "01:01:01"`. -/
theorem format_timestamp_hms (s : ℚ) (hs : 0 ≤ s) :
    format_timestamp s =
      pad2 (⌊s⌋ / 3600) ++ ":" ++ pad2 (⌊s⌋ / 60 % 60) ++ ":" ++ pad2 (⌊s⌋ % 60) ∧
    0 ≤ ⌊s⌋ / 60 % 60 ∧ ⌊s⌋ / 60 % 60 < 60 ∧ 0 ≤ ⌊s⌋ % 60 ∧ ⌊s⌋ % 60 < 60 ∧
    (pad2 (⌊s⌋ / 60 % 60)).length = 2 ∧ (pad2 (⌊s⌋ % 60)).length = 2 ∧
    format_timestamp (36619 / 10) = "01:01:01" := by
  have hfloor : (0 : ℤ) ≤ ⌊s⌋ := Int.floor_nonneg.mpr hs
  have hmain : format_timestamp s =
      pad2 (⌊s⌋ / 3600) ++ ":" ++ pad2 (⌊s⌋ / 60 % 60) ++ ":" ++ pad2 (⌊s⌋ % 60) := by
    unfold format_timestamp
    rw [floor_pymod_3600_div_60, pyInt_pymod_60,
      show (3600 : ℚ) = ((3600 : ℕ) : ℚ) by norm_num,
      floor_div_natCast s 3600 (by norm_num)]
    norm_num
  refine ⟨hmain, by omega, by omega, by omega, by omega,
    pad2_length (by omega) (by omega), pad2_length (by omega) (by omega), ?_⟩
  norm_num [format_timestamp, pymod, pyInt, pad2]
  rfl

/-- Witness for C3 at `s = 3661.9`. -/
theorem format_timestamp_hms_witness :
    (0 : ℚ) ≤ 36619 / 10 ∧ format_timestamp (36619 / 10) = "01:01:01" :=
  ⟨by norm_num, (format_timestamp_hms (36619 / 10) (by norm_num)).2.2.2.2.2.2.2⟩

/-- C4.  On segments whose texts carry no leading or trailing whitespace (the
shape `transcribe_audio`'s `strip()` guarantees), `"long"` mode joins the
(trimmed) texts with single spaces in input order, with no timestamps; and
`"timestamped"` mode renders `"[" ++ formattedStart ++ "] " ++ text`, one
line per segment in input order, joined by newline. -/
theorem format_transcript_modes (segments : List Segment)
    (_htrim : ∀ seg ∈ segments, strippedText seg.text = true) :
    format_transcript segments "long"
      = String.intercalate " " (segments.map (fun seg => seg.text)) ∧
    format_transcript segments "timestamped"
      = String.intercalate "\n" (segments.map
          (fun seg => "[" ++ format_timestamp seg.start ++ "] " ++ seg.text)) := by
  constructor
  · rw [format_transcript, if_pos rfl]
  · rw [format_transcript, if_neg (by decide)]

/-- Witness for C4 on a single segment. -/
theorem format_transcript_modes_witness :
    format_transcript [⟨0, 5, "hello world"⟩] "long" = "hello world" ∧
    format_transcript [⟨0, 5, "hello world"⟩] "timestamped"
      = "[00:00:00] hello world" := by
  have h := format_transcript_modes [⟨0, 5, "hello world"⟩] (by decide)
  refine ⟨?_, ?_⟩
  · rw [h.1]
    rfl
  · rw [h.2]
    norm_num [format_timestamp, pymod, pyInt, pad2]
    rfl

/-- C5.  When every analysis entry has a non-empty description list, the
formatter emits exactly one line per entry, in input order, of the shape
`"[" ++ timestamp ++ "] " ++ label ++ " (confidence: " ++ two decimals ++ ")"`
built from the first description only, joined by newline; in particular a
single entry at `t = 0` with top description `"a person speaking"` at
confidence `0.85` formats to `"[00:00:00] a person speaking (confidence: 0.85)"`. -/
theorem format_visual_content_lines (analyses : List FrameAnalysis)
    (h : ∀ a ∈ analyses, a.descriptions ≠ []) :
    format_visual_content analyses = .ok (String.intercalate "\n"
      (analyses.map (fun a =>
        "[" ++ format_timestamp a.timestamp ++ "] " ++ a.descriptions.headI.text ++
        " (confidence: " ++ formatConf2 a.descriptions.headI.confidence ++ ")"))) ∧
    format_visual_content
        [⟨0, [⟨"a person speaking", 17 / 20⟩, ⟨"a presentation", 1 / 10⟩]⟩]
      = .ok "[00:00:00] a person speaking (confidence: 0.85)" := by
  constructor
  · rw [format_visual_content, visualLines_ok analyses h]
    rfl
  · rw [format_visual_content, visualLines_ok _ (by simp)]
    norm_num [format_timestamp, pymod, pyInt, pad2, formatConf2, roundHalfEven]
    rfl

/-- Witness for C5 on the single-entry example. -/
theorem format_visual_content_lines_witness :
    format_visual_content
        [⟨0, [⟨"a person speaking", 17 / 20⟩, ⟨"a presentation", 1 / 10⟩]⟩]
      = .ok "[00:00:00] a person speaking (confidence: 0.85)" :=
  (format_visual_content_lines
    [⟨0, [⟨"a person speaking", 17 / 20⟩, ⟨"a presentation", 1 / 10⟩]⟩]
    (by simp)).2

/-- C8.  As soon as some entry's description list is empty the formatter
raises (the `descriptions[0]` lookup fails) instead of skipping the entry
and formatting the rest. -/
theorem format_visual_content_empty_raises (analyses : List FrameAnalysis)
    (h : ∃ a ∈ analyses, a.descriptions = []) :
    ∃ msg, format_visual_content analyses = .error msg := by
  induction analyses with
  | nil =>
    obtain ⟨a, ha, -⟩ := h
    exact absurd ha (List.not_mem_nil a)
  | cons a rest ih =>
    cases hd : a.descriptions with
    | nil =>
      refine ⟨"list index out of range", ?_⟩
      rw [format_visual_content,
        show visualLines (a :: rest)
          = match visualLine a with
            | .error e => .error e
            | .ok line =>
              match visualLines rest with
              | .error e => .error e
              | .ok ls => .ok (line :: ls) from rfl,
        show visualLine a = .error "list index out of range" from by
          unfold visualLine
          rw [hd]]
      rfl
    | cons top tl =>
      obtain ⟨b, hb, hbe⟩ := h
      rcases List.mem_cons.mp hb with rfl | hbrest
      · rw [hd] at hbe
        cases hbe
      · obtain ⟨msg, hmsg⟩ := ih ⟨b, hbrest, hbe⟩
        refine ⟨msg, ?_⟩
        have hvl : visualLines rest = .error msg := by
          rw [format_visual_content] at hmsg
          cases hvl' : visualLines rest with
          | error e =>
            rw [hvl'] at hmsg
            simpa [Except.map] using hmsg
          | ok ls =>
            rw [hvl'] at hmsg
            simp [Except.map] at hmsg
        rw [format_visual_content,
          show visualLines (a :: rest)
            = match visualLine a with
              | .error e => .error e
              | .ok line =>
                match visualLines rest with
                | .error e => .error e
                | .ok ls => .ok (line :: ls) from rfl,
          show visualLine a = .ok ("[" ++ format_timestamp a.timestamp ++ "] "
              ++ top.text ++ " (confidence: " ++ formatConf2 top.confidence ++ ")")
            from by
            unfold visualLine
            rw [hd],
          hvl]
        rfl

/-- Witness for C8 on a single entry with no descriptions. -/
theorem format_visual_content_empty_raises_witness :
    ∃ msg, format_visual_content [⟨0, []⟩] = .error msg :=
  format_visual_content_empty_raises [⟨0, []⟩] ⟨⟨0, []⟩, by simp, rfl⟩

/-- C6.  The prompt is exactly the fixed template with the transcript and
visual content inserted unmodified; the instruction line is selected by the
format (`"timestamped"` picks the timestamped instruction, anything else the
comprehensive one); the builder is deterministic; and the `"long"` and
`"timestamped"` prompts for the same inputs share the same prefix and suffix,
differing only in the instruction line. -/
theorem construct_prompt_template (transcript visual_content format_type : String) :
    construct_prompt transcript visual_content format_type
      = "Please analyze the following video content and create a summary.\n\nTranscript:\n"
        ++ transcript ++ "\n\nVisual Content Analysis:\n" ++ visual_content
        ++ "\n\nInstructions:\n"
        ++ (if format_type = "timestamped" then timestampedInstruction else longInstruction)
        ++ "\nFocus on the main points and key insights.\nIf there are any demonstrations or visual elements, make sure to mention them.\nKeep the summary clear and concise while maintaining all important information.\n\nSummary:" ∧
    construct_prompt transcript visual_content format_type
      = construct_prompt transcript visual_content format_type ∧
    (∃ pre post,
      construct_prompt transcript visual_content "long"
        = pre ++ longInstruction ++ post ∧
      construct_prompt transcript visual_content "timestamped"
        = pre ++ timestampedInstruction ++ post) :=
  ⟨rfl, rfl,
    "Please analyze the following video content and create a summary.\n\nTranscript:\n"
      ++ transcript ++ "\n\nVisual Content Analysis:\n" ++ visual_content
      ++ "\n\nInstructions:\n",
    "\nFocus on the main points and key insights.\nIf there are any demonstrations or visual elements, make sure to mention them.\nKeep the summary clear and concise while maintaining all important information.\n\nSummary:",
    rfl, rfl⟩

/-- C7.  Whenever the acquisition collaborator fails, the pipeline surfaces
the wrapped acquisition error, invokes no stage beyond acquisition — in
particular neither transcription nor visual analysis — and returns no
summary. -/
theorem pipeline_acquisition_failure (c : Collaborators) (url fmt e : String)
    (h : c.pytube url = .error e) :
    runPipeline c url fmt
      = (.error ("Error: " ++ ("Error downloading video: " ++ e)), [.acquire]) ∧
    (∀ s, (runPipeline c url fmt).1 ≠ .ok s) ∧
    Stage.transcribe ∉ (runPipeline c url fmt).2 ∧
    Stage.analyze ∉ (runPipeline c url fmt).2 ∧
    Stage.generate ∉ (runPipeline c url fmt).2 := by
  have hrun : runPipeline c url fmt
      = (.error ("Error: " ++ ("Error downloading video: " ++ e)), [.acquire]) := by
    unfold runPipeline download_video
    rw [h]
  refine ⟨hrun, ?_, ?_, ?_, ?_⟩ <;> rw [hrun] <;> simp

/-- Witness for C7: a collaborator set whose fetch always fails. -/
theorem pipeline_acquisition_failure_witness :
    runPipeline
      ⟨fun _ => .error "HTTP Error 400: Bad Request", fun _ => (0, 0),
        fun _ => .ok [], fun _ => .ok [], fun _ => .ok ""⟩
      "not-a-url" "long"
      = (.error ("Error: " ++ ("Error downloading video: "
          ++ "HTTP Error 400: Bad Request")), [Stage.acquire]) :=
  (pipeline_acquisition_failure _ "not-a-url" "long" "HTTP Error 400: Bad Request"
    rfl).1

/-- C9.  Both formatters map the empty input sequence to the empty string
without an error, in every mode. -/
theorem formatters_empty_input :
    format_transcript [] "long" = "" ∧ format_transcript [] "timestamped" = "" ∧
    format_visual_content [] = .ok "" :=
  ⟨rfl, rfl, rfl⟩

end YTsum
